import Mathlib

/-
Shallow embedding of the food-map repository's persistence and
reconciliation core (src/src/database/database.py and
src/src/instagram/extractor.py), together with theorems settling the
frozen claims about it.

Modelling conventions:
- the SQLite `posts` table is a list of `Row`s in insertion order;
- the in-memory processed-ids cache (`_processed_ids_cache`) is an
  `Option (Finset String)`, mirroring Python's `Optional[Set[str]]`;
- `CURRENT_TIMESTAMP` is a logical clock carried by the `DB` state;
- SQLite's documented `LIMIT`/`OFFSET` semantics are modelled exactly:
  a negative `LIMIT` means "no bound", a negative `OFFSET` behaves as 0,
  and an `OFFSET` clause without a `LIMIT` clause is a syntax error
  (the Python code catches that error and returns the empty list);
- environmental storage failures (the `except Exception` branches around
  `INSERT`) are injected through an explicit boolean/behaviour argument.
-/

namespace FoodMap

/-- One row of the `posts` table (see `init_database` in database.py). -/
structure Row where
  post_id : String
  author : String
  post_date : Nat
  post_type : String
  likes : Nat
  comments : Nat
  url : String
  content : String
  parsed_store : Option String := none
  parsed_address : Option String := none
  created_at : Nat := 0
  updated_at : Nat := 0
deriving DecidableEq, Repr

/-- The persistent state a `DatabaseManager` works on: the `posts` table,
the `_processed_ids_cache` field and a logical clock that supplies
`CURRENT_TIMESTAMP` values. -/
structure DB where
  rows : List Row := []
  cache : Option (Finset String) := none
  clock : Nat := 0
deriving DecidableEq

/-- The list of `post_id`s stored in the table, in row order. -/
def DB.ids (db : DB) : List String := db.rows.map (fun r => r.post_id)

/-- The projection returned by `get_posts` / `search_posts`
(models the `PostData` dataclass in models.py). -/
structure PostData where
  post_id : String
  author : String
  post_date : Nat
  post_type : String
  likes : Nat
  comments : Nat
  url : String
  content : String
  created_at : Nat
  updated_at : Nat
deriving DecidableEq, Repr

def Row.toPostData (r : Row) : PostData :=
  { post_id := r.post_id, author := r.author, post_date := r.post_date
    post_type := r.post_type, likes := r.likes, comments := r.comments
    url := r.url, content := r.content
    created_at := r.created_at, updated_at := r.updated_at }

/-- A saved post as handed over by instaloader
(the fields `save_post` and the extractor loop read). -/
structure RemotePost where
  shortcode : String
  owner_username : String
  date_utc : Nat
  is_video : Bool
  likes : Nat
  comments : Nat
  caption : Option String := none
deriving DecidableEq, Repr

/-- The row `save_post` inserts for a remote post. -/
def RemotePost.toRow (p : RemotePost) (now : Nat) : Row :=
  { post_id := p.shortcode
    author := p.owner_username
    post_date := p.date_utc
    post_type := if p.is_video then "影片" else "圖片"
    likes := p.likes
    comments := p.comments
    url := "https://www.instagram.com/p/" ++ p.shortcode ++ "/"
    content := p.caption.getD ""
    parsed_store := none
    parsed_address := none
    created_at := now
    updated_at := now }

/-- SQLite's `LIMIT lim OFFSET off` applied to a result list: a negative
offset behaves as 0, a negative limit means "no upper bound". -/
def sqliteLimitOffset (lim off : Int) (xs : List α) : List α :=
  let dropped := xs.drop off.toNat
  if lim < 0 then dropped else dropped.take lim.toNat

/-- Relation for `ORDER BY post_date DESC`. -/
def byDateDesc (a b : Row) : Prop := b.post_date ≤ a.post_date

instance : DecidableRel byDateDesc := fun a b => Nat.decLe _ _

/-- Relation for `ORDER BY updated_at DESC`. -/
def byUpdatedDesc (a b : Row) : Prop := b.updated_at ≤ a.updated_at

instance : DecidableRel byUpdatedDesc := fun a b => Nat.decLe _ _

namespace DatabaseManager

/-- Model of `DatabaseManager.get_all_processed_ids`: returns the cache when it is
populated, otherwise loads every `post_id` into a fresh cache. -/
def get_all_processed_ids (db : DB) : Finset String × DB :=
  match db.cache with
  | some c => (c, db)
  | none =>
    let s := db.ids.toFinset
    (s, { db with cache := some s })

/-- Model of `DatabaseManager.save_post`. `storageError` injects the environmental
`except Exception` branch (logged, returns `False`, nothing persisted);
a `post_id` collision hits the UNIQUE constraint (`IntegrityError`) and
returns `False` without touching the row or the cache; a successful
insert appends the row and adds the id to the cache when populated. -/
def save_post (storageError : Bool) (p : RemotePost) (db : DB) : Bool × DB :=
  if storageError then (false, db)
  else if p.shortcode ∈ db.ids then (false, db)
  else
    (true,
     { rows := db.rows ++ [p.toRow db.clock]
       cache := db.cache.map (fun c => insert p.shortcode c)
       clock := db.clock + 1 })

/-- Model of `DatabaseManager.get_posts_count`. -/
def get_posts_count (db : DB) : Nat := db.rows.length

/-- Model of `DatabaseManager.get_posts`: `if limit:` is Python truthiness, so the
`LIMIT {limit} OFFSET {offset}` clause is appended only when `limit` is
neither `None` nor `0`. -/
def get_posts (db : DB) (limit : Option Int) (offset : Int) : List PostData :=
  let sorted := db.rows.insertionSort byDateDesc
  let selected :=
    match limit with
    | none => sorted
    | some l => if l = 0 then sorted else sqliteLimitOffset l offset sorted
  selected.map Row.toPostData

/-- Model of `DatabaseManager.update_post_metadata`: refuses when neither field is
provided, otherwise sets exactly the provided fields (and `updated_at`)
on every row matching `post_id` and reports whether a row was hit. -/
def update_post_metadata (db : DB) (pid : String)
    (store addr : Option String) : Bool × DB :=
  if store = none ∧ addr = none then (false, db)
  else
    let affected := db.rows.any (fun r => r.post_id = pid)
    let rows' := db.rows.map (fun r =>
      if r.post_id = pid then
        { r with
          parsed_store := match store with | some s => some s | none => r.parsed_store
          parsed_address := match addr with | some a => some a | none => r.parsed_address
          updated_at := db.clock }
      else r)
    (affected, { db with rows := rows', clock := db.clock + 1 })

/-- The WHERE clause of `get_unparsed_posts`:
`(parsed_store IS NULL OR parsed_store = '') AND parsed_address IS NULL`. -/
def unparsedPred (r : Row) : Prop :=
  (r.parsed_store = none ∨ r.parsed_store = some "") ∧ r.parsed_address = none

instance : DecidablePred unparsedPred := fun r => by
  unfold unparsedPred; infer_instance

/-- Model of `DatabaseManager.get_unparsed_posts`. When `limit` is `None` the code
executes `... ORDER BY post_date DESC OFFSET ?` — SQLite has no `OFFSET`
without `LIMIT`, so the statement raises `OperationalError`, the handler
logs it and the function returns `[]`. -/
def get_unparsed_posts (db : DB) (limit : Option Int) (offset : Int) :
    List (String × String) :=
  match limit with
  | none => []
  | some l =>
    let sorted := db.rows.insertionSort byDateDesc
    let filtered := sorted.filter (fun r => decide (unparsedPred r))
    (sqliteLimitOffset l offset filtered).map (fun r => (r.post_id, r.content))

/-- The WHERE clause of `get_parsed_posts`:
`parsed_address IS NOT NULL AND parsed_address != ''`. -/
def parsedPred (r : Row) : Prop :=
  r.parsed_address ≠ none ∧ r.parsed_address ≠ some ""

instance : DecidablePred parsedPred := fun r => by
  unfold parsedPred; infer_instance

/-- Model of `DatabaseManager.get_parsed_posts`; same `OFFSET`-without-`LIMIT`
failure as `get_unparsed_posts` when `limit` is `None`. -/
def get_parsed_posts (db : DB) (limit : Option Int) (offset : Int) :
    List (String × Option String × Option String) :=
  match limit with
  | none => []
  | some l =>
    let sorted := db.rows.insertionSort byUpdatedDesc
    let filtered := sorted.filter (fun r => decide (parsedPred r))
    (sqliteLimitOffset l offset filtered).map
      (fun r => (r.post_id, r.parsed_store, r.parsed_address))

/-- Model of `DatabaseManager.delete_post_by_id`: deletes the matching rows and, on
success, discards the id from the populated cache. -/
def delete_post_by_id (db : DB) (pid : String) : Bool × DB :=
  let affected := db.rows.any (fun r => r.post_id = pid)
  if affected then
    (true,
     { rows := db.rows.filter (fun r => decide (¬ r.post_id = pid))
       cache := db.cache.map (fun c => c.erase pid)
       clock := db.clock + 1 })
  else (false, db)

/-- Per-batch result record shared by the batch update and batch delete
operations (`success_count`, `failed_count` and the detail lists). -/
structure BatchDeleteResult where
  success_count : Nat := 0
  failed_count : Nat := 0
  success_posts : List String := []
  failed_posts : List (String × String) := []
deriving DecidableEq, Repr

/-- Loop body of `DatabaseManager.batch_delete_posts`, one connection
threaded through the ids in order. -/
def batch_delete_go (db : DB) (acc : BatchDeleteResult) :
    List String → BatchDeleteResult × DB
  | [] => (acc, db)
  | pid :: rest =>
    if pid = "" then
      batch_delete_go db
        { acc with failed_count := acc.failed_count + 1
                   failed_posts := acc.failed_posts ++ [(pid, "post_id 為空")] } rest
    else if db.rows.any (fun r => r.post_id = pid) then
      batch_delete_go
        { rows := db.rows.filter (fun r => decide (¬ r.post_id = pid))
          cache := db.cache.map (fun c => c.erase pid)
          clock := db.clock + 1 }
        { acc with success_count := acc.success_count + 1
                   success_posts := acc.success_posts ++ [pid] } rest
    else
      batch_delete_go db
        { acc with failed_count := acc.failed_count + 1
                   failed_posts := acc.failed_posts ++ [(pid, "找不到該貼文 ID")] } rest

/-- Model of `DatabaseManager.batch_delete_posts`. -/
def batch_delete_posts (db : DB) (post_ids : List String) :
    BatchDeleteResult × DB :=
  batch_delete_go db {} post_ids

/-- One entry of a `batch_update_post_metadata` request; a missing or
empty `post_id` (Python falsiness) makes the entry invalid. -/
structure UpdateRequest where
  post_id : String := ""
  parsed_store : Option String := none
  parsed_address : Option String := none
deriving DecidableEq, Repr

structure BatchUpdateResult where
  success_count : Nat := 0
  failed_count : Nat := 0
  success_posts : List (String × Option String × Option String) := []
  failed_posts : List (String × String) := []
deriving DecidableEq, Repr

/-- Loop body of `DatabaseManager.batch_update_post_metadata`: each entry
is classified as invalid (no id / no fields), not-found, or updated; no
entry aborts the remaining ones. -/
def batch_update_go (db : DB) (acc : BatchUpdateResult) :
    List UpdateRequest → BatchUpdateResult × DB
  | [] => (acc, db)
  | u :: rest =>
    if u.post_id = "" then
      batch_update_go db
        { acc with failed_count := acc.failed_count + 1
                   failed_posts := acc.failed_posts ++ [(u.post_id, "缺少 post_id")] } rest
    else if u.parsed_store = none ∧ u.parsed_address = none then
      batch_update_go db
        { acc with failed_count := acc.failed_count + 1
                   failed_posts := acc.failed_posts ++ [(u.post_id, "沒有提供要更新的欄位")] } rest
    else if db.rows.any (fun r => r.post_id = u.post_id) then
      batch_update_go
        { db with
          rows := db.rows.map (fun r =>
            if r.post_id = u.post_id then
              { r with
                parsed_store :=
                  match u.parsed_store with | some s => some s | none => r.parsed_store
                parsed_address :=
                  match u.parsed_address with | some a => some a | none => r.parsed_address
                updated_at := db.clock }
            else r)
          clock := db.clock + 1 }
        { acc with success_count := acc.success_count + 1
                   success_posts := acc.success_posts ++
                     [(u.post_id, u.parsed_store, u.parsed_address)] } rest
    else
      batch_update_go db
        { acc with failed_count := acc.failed_count + 1
                   failed_posts := acc.failed_posts ++ [(u.post_id, "找不到該貼文 ID")] } rest

/-- Model of `DatabaseManager.batch_update_post_metadata`. -/
def batch_update_post_metadata (db : DB) (updates : List UpdateRequest) :
    BatchUpdateResult × DB :=
  batch_update_go db {} updates

end DatabaseManager

namespace InstagramExtractor

/-- How the environment behaves while the extractor loop processes one
saved post: a normal pass (optionally hitting the storage-error branch
inside `save_post`), an exception raised in the loop body (caught by the
`except Exception: continue` handler), or a `KeyboardInterrupt`
(the `break` handler). -/
inductive ItemBehavior where
  | normal (storageError : Bool)
  | raiseExc
  | interrupt
deriving DecidableEq, Repr

/-- One element of the materialised `saved_posts_list`, paired with the
behaviour of the environment while it is processed. -/
abbrev SavedItem := RemotePost × ItemBehavior

/-- The `InstagramExtractor.extract_saved_posts` per-item loop: posts not
in `new_shortcodes` are skipped; otherwise `save_post` is attempted, a
caught exception continues with the next item, and a keyboard interrupt
breaks out of the loop. `count` is the successful-insert counter. -/
def extractLoop (newIds : Finset String) :
    List SavedItem → DB → Nat → DB × Nat
  | [], db, count => (db, count)
  | (p, b) :: rest, db, count =>
    if p.shortcode ∈ newIds then
      match b with
      | .interrupt => (db, count)
      | .raiseExc => extractLoop newIds rest db count
      | .normal err =>
        let r := DatabaseManager.save_post err p db
        extractLoop newIds rest r.2 (if r.1 then count + 1 else count)
    else
      extractLoop newIds rest db count

/-- The `ExtractResult` dataclass from models.py. -/
structure ExtractResult where
  success : Bool
  username : Option String := none
  total_found : Nat := 0
  new_posts : Int := 0
  skipped_posts : Nat := 0
  total_in_db : Nat := 0
  error : Option String := none
deriving DecidableEq, Repr

/-- Model of `InstagramExtractor.extract_saved_posts`. Here `is_logged_in` is the auth
manager's flag, `profile` is `none` when `get_profile` returns `None`,
and `fetchFails` injects an exception raised while fetching and
materialising the saved-post collection (the outer `except` branch,
which fires after the known-id snapshot was loaded). -/
def extract_saved_posts (username : String) (is_logged_in : Bool)
    (profile : Option (List SavedItem)) (fetchFails : Bool) (db : DB) :
    ExtractResult × DB :=
  if ¬ is_logged_in then
    ({ success := false, username := some username, error := some "未登入" }, db)
  else
    match profile with
    | none =>
      ({ success := false, username := some username,
         error := some "無法獲取個人檔案" }, db)
    | some savedList =>
      let existing_count := DatabaseManager.get_posts_count db
      let pr := DatabaseManager.get_all_processed_ids db
      if fetchFails then
        ({ success := false, username := some username,
           error := some "處理儲存貼文失敗" }, pr.2)
      else
        let saved_shortcodes := (savedList.map (fun pb => pb.1.shortcode)).toFinset
        let total_found := saved_shortcodes.card
        let new_shortcodes := saved_shortcodes \ pr.1
        let skipped_count := total_found - new_shortcodes.card
        let lr := extractLoop new_shortcodes savedList pr.2 0
        let final_count := DatabaseManager.get_posts_count lr.1
        ({ success := true, username := some username
           total_found := total_found
           new_posts := (final_count : Int) - (existing_count : Int)
           skipped_posts := skipped_count
           total_in_db := final_count }, lr.1)

/-- Observable side-effect ordering of the extractor delete path. -/
inductive Event where
  | remoteUnsave (pid : String)
  | localDelete (pid : String)
deriving DecidableEq, Repr

/-- Model of `InstagramExtractor.delete_post_by_id`. Here `unsaveOk` is the outcome of
`_unsave_post_from_instagram` (which catches every exception internally
and only returns a boolean); a `false` outcome is merely logged. The
returned event trace records which external actions were attempted, in
order. -/
def delete_post_by_id (unsaveOk : Bool) (db : DB) (pid : String)
    (unsave_from_instagram : Bool) : Bool × DB × List Event :=
  let pre : List Event :=
    if unsave_from_instagram then [Event.remoteUnsave pid] else []
  let r := DatabaseManager.delete_post_by_id db pid
  (r.1, r.2, pre ++ [Event.localDelete pid])

end InstagramExtractor

/-- Concrete remote post used to instantiate hypotheses of the claim
theorems on a small store. -/
def exRemote : RemotePost :=
  { shortcode := "a", owner_username := "u", date_utc := 1,
    is_video := false, likes := 0, comments := 0, caption := some "hi" }

/-- Empty concrete store. -/
def exDb0 : DB := { rows := [], cache := none, clock := 0 }

/-- Concrete rows and store with two items, distinct `posted_at`. -/
def exRow1 : Row :=
  { post_id := "p1", author := "alice", post_date := 2, post_type := "圖片",
    likes := 0, comments := 0, url := "u1", content := "first" }

def exRow2 : Row :=
  { post_id := "p2", author := "bob", post_date := 1, post_type := "圖片",
    likes := 0, comments := 0, url := "u2", content := "second" }

def exListDb : DB := { rows := [exRow1, exRow2], cache := none, clock := 0 }

/-- Concrete store whose processed-ids cache is populated and agrees
with the persisted rows. -/
def exCachedDb : DB :=
  { rows := [exRow1, exRow2], cache := some {"p1", "p2"}, clock := 0 }

/-- A persisted item with both annotation fields null. -/
def exUnparsedRow : Row :=
  { post_id := "q1", author := "alice", post_date := 5, post_type := "圖片",
    likes := 0, comments := 0, url := "u3", content := "noodles",
    parsed_store := none, parsed_address := none }

def exUnparsedDb : DB := { rows := [exUnparsedRow], cache := none, clock := 0 }

/-- A persisted item whose `parsed_address` is the empty string (and
`parsed_store` null): both annotation fields are "null or empty". -/
def exEmptyAddrRow : Row :=
  { post_id := "q2", author := "bob", post_date := 6, post_type := "圖片",
    likes := 0, comments := 0, url := "u4", content := "rice",
    parsed_store := none, parsed_address := some "" }

def exEmptyAddrDb : DB := { rows := [exEmptyAddrRow], cache := none, clock := 0 }

/-- Invariant: `item_id` uniqueness in the store. -/
def UniqueIds (db : DB) : Prop := db.ids.Nodup

/-- Coherence of the populated processed-ids cache with the table. -/
def CacheConsistent (db : DB) : Prop :=
  ∀ c, db.cache = some c → ∀ x, x ∈ c ↔ x ∈ db.ids

section Lemmas

open DatabaseManager InstagramExtractor

lemma ids_map_of_preserved (g : Row → Row) (h : ∀ r, (g r).post_id = r.post_id)
    (rows : List Row) :
    (rows.map g).map (fun r => r.post_id) = rows.map (fun r => r.post_id) := by
  rw [List.map_map]
  exact List.map_congr_left (fun r _ => h r)

lemma get_all_processed_ids_rows (db : DB) :
    (get_all_processed_ids db).2.rows = db.rows := by
  cases h : db.cache <;> simp [get_all_processed_ids, h]

lemma save_post_err_eq (p : RemotePost) (db : DB) :
    save_post true p db = (false, db) := rfl

lemma save_post_dup (p : RemotePost) (db : DB) (h : p.shortcode ∈ db.ids) :
    save_post false p db = (false, db) := by
  simp [save_post, h]

lemma save_post_new (p : RemotePost) (db : DB) (h : p.shortcode ∉ db.ids) :
    save_post false p db =
      (true,
       { rows := db.rows ++ [p.toRow db.clock]
         cache := db.cache.map (fun c => insert p.shortcode c)
         clock := db.clock + 1 }) := by
  simp [save_post, h]

lemma save_post_length (e : Bool) (p : RemotePost) (db : DB) :
    (save_post e p db).2.rows.length =
      db.rows.length + (if (save_post e p db).1 then 1 else 0) := by
  cases e
  · by_cases h : p.shortcode ∈ db.ids
    · simp [save_post_dup p db h]
    · simp [save_post_new p db h]
  · simp [save_post_err_eq]

lemma save_post_row_origin (e : Bool) (p : RemotePost) (db : DB) :
    ∀ r ∈ (save_post e p db).2.rows, r ∈ db.rows ∨ r = p.toRow db.clock := by
  cases e
  · by_cases h : p.shortcode ∈ db.ids
    · rw [save_post_dup p db h]
      exact fun r hr => Or.inl hr
    · rw [save_post_new p db h]
      intro r hr
      rcases List.mem_append.mp hr with hr | hr
      · exact Or.inl hr
      · exact Or.inr (List.mem_singleton.mp hr)
  · rw [save_post_err_eq]
    exact fun r hr => Or.inl hr

lemma extractLoop_count (n : Finset String) (l : List SavedItem) :
    ∀ (db : DB) (c : Nat),
      (extractLoop n l db c).1.rows.length + c =
        (extractLoop n l db c).2 + db.rows.length := by
  induction l with
  | nil => intro db c; simp only [extractLoop]; omega
  | cons pb rest ih =>
    intro db c
    obtain ⟨p, b⟩ := pb
    by_cases hm : p.shortcode ∈ n
    · cases b with
      | interrupt => simp only [extractLoop, hm, if_pos]; omega
      | raiseExc =>
        have := ih db c
        simp only [extractLoop, hm, if_pos]
        omega
      | normal err =>
        have hlen := save_post_length err p db
        have := ih (save_post err p db).2
          (if (save_post err p db).1 then c + 1 else c)
        simp only [extractLoop, hm, if_pos]
        cases hs : (save_post err p db).1 <;>
          simp [hs] at hlen this ⊢ <;> omega
    · simpa [extractLoop, hm] using ih db c

lemma extractLoop_row_origin (n : Finset String) (l : List SavedItem) :
    ∀ (db : DB) (c : Nat) (r : Row),
      r ∈ (extractLoop n l db c).1.rows → r ∈ db.rows ∨ r.post_id ∈ n := by
  induction l with
  | nil => intro db c r hr; simp [extractLoop] at hr; exact Or.inl hr
  | cons pb rest ih =>
    intro db c r hr
    obtain ⟨p, b⟩ := pb
    by_cases hm : p.shortcode ∈ n
    · cases b with
      | interrupt =>
        simp [extractLoop, hm] at hr; exact Or.inl hr
      | raiseExc =>
        simp only [extractLoop, hm, if_pos] at hr
        exact ih db c r hr
      | normal err =>
        simp only [extractLoop, hm, if_pos] at hr
        rcases ih _ _ r hr with hr' | hr'
        · rcases save_post_row_origin err p db r hr' with h | h
          · exact Or.inl h
          · right
            rw [h]
            simpa [RemotePost.toRow] using hm
        · exact Or.inr hr'
    · simp only [extractLoop, hm, if_neg, ite_false] at hr
      exact ih db c r hr

lemma extractLoop_empty (l : List SavedItem) :
    ∀ (db : DB) (c : Nat), extractLoop ∅ l db c = (db, c) := by
  induction l with
  | nil => intro db c; simp [extractLoop]
  | cons pb rest ih =>
    intro db c
    obtain ⟨p, b⟩ := pb
    simp [extractLoop, ih]

lemma extractLoop_storage_error (n : Finset String) (p : RemotePost)
    (rest : List SavedItem) (db : DB) (c : Nat) :
    extractLoop n ((p, ItemBehavior.normal true) :: rest) db c =
      extractLoop n rest db c := by
  by_cases hm : p.shortcode ∈ n <;> simp [extractLoop, hm, save_post_err_eq]

lemma extractLoop_drop_failed (n : Finset String) (p : RemotePost)
    (pre post : List SavedItem) :
    ∀ (db : DB) (c : Nat),
      extractLoop n (pre ++ (p, ItemBehavior.normal true) :: post) db c =
        extractLoop n (pre ++ post) db c := by
  induction pre with
  | nil => intro db c; exact extractLoop_storage_error n p post db c
  | cons qb pre' ih =>
    intro db c
    obtain ⟨q, b⟩ := qb
    by_cases hm : q.shortcode ∈ n
    · cases b with
      | interrupt => simp [extractLoop, hm]
      | raiseExc => simp only [List.cons_append, extractLoop, hm, if_pos]; exact ih db c
      | normal err =>
        simp only [List.cons_append, extractLoop, hm, if_pos]
        exact ih _ _
    · simp only [List.cons_append, extractLoop, hm, if_neg, ite_false]
      exact ih db c

lemma extractLoop_cache (n : Finset String) (l : List SavedItem) :
    ∀ (db : DB) (c0 : Nat) (cs : Finset String),
      db.cache = some cs → (∀ x ∈ db.ids, x ∈ cs) →
      (∀ pb ∈ l, pb.2 = ItemBehavior.normal false) →
      ∃ cs', (extractLoop n l db c0).1.cache = some cs' ∧ cs ⊆ cs' ∧
        (∀ pb ∈ l, pb.1.shortcode ∈ n → pb.1.shortcode ∈ cs') := by
  induction l with
  | nil =>
    intro db c0 cs hc _ _
    exact ⟨cs, by simpa [extractLoop] using hc, Finset.Subset.refl cs, by simp⟩
  | cons pb rest ih =>
    intro db c0 cs hc hcov hbeh
    obtain ⟨p, b⟩ := pb
    have hb : b = ItemBehavior.normal false := hbeh (p, b) (by simp)
    subst hb
    have hbeh' : ∀ pb ∈ rest, pb.2 = ItemBehavior.normal false :=
      fun pb hpb => hbeh pb (List.mem_cons_of_mem _ hpb)
    by_cases hm : p.shortcode ∈ n
    · by_cases hdup : p.shortcode ∈ db.ids
      · have hsave := save_post_dup p db hdup
        simp only [extractLoop, hm, if_pos, hsave]
        obtain ⟨cs', h1, h2, h3⟩ := ih db c0 cs hc hcov hbeh'
        refine ⟨cs', h1, h2, ?_⟩
        intro qb hqb hqn
        rcases List.mem_cons.mp hqb with hqb | hqb
        · subst hqb
          exact h2 (hcov _ hdup)
        · exact h3 qb hqb hqn
      · have hc2 : (save_post false p db).2.cache = some (insert p.shortcode cs) := by
          rw [save_post_new p db hdup]
          simp [hc]
        have hcov2 : ∀ x ∈ (save_post false p db).2.ids, x ∈ insert p.shortcode cs := by
          rw [save_post_new p db hdup]
          intro x hx
          simp only [DB.ids, List.map_append, List.mem_append] at hx
          rcases hx with hx | hx
          · exact Finset.mem_insert_of_mem (hcov x hx)
          · simp only [List.map_cons, List.map_nil, List.mem_singleton] at hx
            subst hx
            simp [RemotePost.toRow]
        simp only [extractLoop, hm, if_pos]
        obtain ⟨cs', h1, h2, h3⟩ := ih _ _ _ hc2 hcov2 hbeh'
        refine ⟨cs', h1, fun x hx => h2 (Finset.mem_insert_of_mem hx), ?_⟩
        intro qb hqb hqn
        rcases List.mem_cons.mp hqb with hqb | hqb
        · subst hqb
          exact h2 (Finset.mem_insert_self _ _)
        · exact h3 qb hqb hqn
    · simp only [extractLoop, hm, if_neg, ite_false]
      obtain ⟨cs', h1, h2, h3⟩ := ih db c0 cs hc hcov hbeh'
      refine ⟨cs', h1, h2, ?_⟩
      intro qb hqb hqn
      rcases List.mem_cons.mp hqb with hqb | hqb
      · subst hqb; exact absurd hqn hm
      · exact h3 qb hqb hqn

lemma update_row_post_id (pid : String) (s a : Option String) (clk : Nat) (r : Row) :
    ((if r.post_id = pid then
        { r with
          parsed_store := match s with | some v => some v | none => r.parsed_store
          parsed_address := match a with | some v => some v | none => r.parsed_address
          updated_at := clk }
      else r) : Row).post_id = r.post_id := by
  by_cases hr : r.post_id = pid <;> simp [hr]

lemma batch_update_go_ids_cache (us : List UpdateRequest) :
    ∀ (db : DB) (acc : BatchUpdateResult),
      (batch_update_go db acc us).2.ids = db.ids ∧
      (batch_update_go db acc us).2.cache = db.cache := by
  induction us with
  | nil => intro db acc; exact ⟨rfl, rfl⟩
  | cons u rest ih =>
    intro db acc
    by_cases h1 : u.post_id = ""
    · simpa [batch_update_go, h1] using ih db _
    · by_cases h2 : u.parsed_store = none ∧ u.parsed_address = none
      · simpa [batch_update_go, h1, h2] using ih db _
      · by_cases h3 : db.rows.any (fun r => r.post_id = u.post_id)
        · have := ih
            { db with
              rows := db.rows.map (fun r =>
                if r.post_id = u.post_id then
                  { r with
                    parsed_store :=
                      match u.parsed_store with | some s => some s | none => r.parsed_store
                    parsed_address :=
                      match u.parsed_address with | some a => some a | none => r.parsed_address
                    updated_at := db.clock }
                else r)
              clock := db.clock + 1 }
            { acc with success_count := acc.success_count + 1
                       success_posts := acc.success_posts ++
                         [(u.post_id, u.parsed_store, u.parsed_address)] }
          rw [batch_update_go, if_neg h1, if_neg h2, if_pos h3]
          refine ⟨?_, this.2⟩
          rw [this.1]
          exact ids_map_of_preserved _ (update_row_post_id u.post_id _ _ _) db.rows
        · simpa [batch_update_go, h1, h2, h3] using ih db _

lemma filtered_ids_sublist (db : DB) (pid : String) :
    List.Sublist
      ((db.rows.filter (fun r => decide (¬ r.post_id = pid))).map
        (fun r => r.post_id))
      db.ids := by
  exact (List.filter_sublist db.rows).map (fun r => r.post_id)

lemma batch_delete_go_unique (pids : List String) :
    ∀ (db : DB) (acc : BatchDeleteResult), UniqueIds db →
      UniqueIds (batch_delete_go db acc pids).2 := by
  induction pids with
  | nil => intro db acc h; exact h
  | cons pid rest ih =>
    intro db acc h
    by_cases h1 : pid = ""
    · rw [batch_delete_go, if_pos h1]
      exact ih db _ h
    · by_cases h2 : db.rows.any (fun r => r.post_id = pid)
      · rw [batch_delete_go, if_neg h1, if_pos h2]
        exact ih _ _ ((filtered_ids_sublist db pid).nodup h)
      · rw [batch_delete_go, if_neg h1, if_neg h2]
        exact ih db _ h

lemma cacheConsistent_of_ids_cache_eq (db db' : DB) (hids : db'.ids = db.ids)
    (hcache : db'.cache = db.cache) (h : CacheConsistent db) :
    CacheConsistent db' := by
  intro c hc x
  rw [hids]
  exact h c (by rw [← hcache]; exact hc) x

lemma cacheConsistent_save (e : Bool) (p : RemotePost) (db : DB)
    (h : CacheConsistent db) : CacheConsistent (save_post e p db).2 := by
  cases e
  · by_cases hm : p.shortcode ∈ db.ids
    · rw [save_post_dup p db hm]; exact h
    · rw [save_post_new p db hm]
      intro c hc x
      rcases hdb : db.cache with _ | c₀
      · rw [hdb] at hc
        exact absurd hc (by simp)
      · rw [hdb] at hc
        have hce : c = insert p.shortcode c₀ := by
          simpa using hc.symm
        subst hce
        have hx := h c₀ hdb x
        simp only [DB.ids] at hx ⊢
        simp only [Finset.mem_insert, List.map_append, List.mem_append,
          List.map_cons, List.map_nil, List.mem_singleton, RemotePost.toRow]
        tauto
  · rw [save_post_err_eq]; exact h

lemma cacheConsistent_filter_erase (db : DB) (pid : String) (k : Nat)
    (h : CacheConsistent db) :
    CacheConsistent
      { rows := db.rows.filter (fun r => decide (¬ r.post_id = pid))
        cache := db.cache.map (fun c => c.erase pid)
        clock := k } := by
  intro c hc x
  rcases hdb : db.cache with _ | c₀
  · rw [hdb] at hc
    exact absurd hc (by simp)
  · rw [hdb] at hc
    have hce : c = c₀.erase pid := by
      simpa using hc.symm
    subst hce
    have hx := h c₀ hdb
    simp only [DB.ids] at hx ⊢
    simp only [Finset.mem_erase, List.mem_map, List.mem_filter,
      decide_eq_true_eq]
    constructor
    · rintro ⟨hne, hxc⟩
      obtain ⟨r, hr, hrx⟩ := List.mem_map.mp ((hx x).mp hxc)
      exact ⟨r, ⟨hr, by rw [hrx]; exact hne⟩, hrx⟩
    · rintro ⟨r, ⟨hr, hrp⟩, hrx⟩
      refine ⟨by rw [← hrx]; exact hrp, ?_⟩
      exact (hx x).mpr (List.mem_map.mpr ⟨r, hr, hrx⟩)

lemma batch_delete_go_cache (pids : List String) :
    ∀ (db : DB) (acc : BatchDeleteResult), CacheConsistent db →
      CacheConsistent (batch_delete_go db acc pids).2 := by
  induction pids with
  | nil => intro db acc h; exact h
  | cons pid rest ih =>
    intro db acc h
    by_cases h1 : pid = ""
    · rw [batch_delete_go, if_pos h1]
      exact ih db _ h
    · by_cases h2 : db.rows.any (fun r => r.post_id = pid)
      · rw [batch_delete_go, if_neg h1, if_pos h2]
        exact ih _ _ (cacheConsistent_filter_erase db pid (db.clock + 1) h)
      · rw [batch_delete_go, if_neg h1, if_neg h2]
        exact ih db _ h

lemma limit_big_take (l : Int) (xs : List α) (hl : xs.length ≤ l.toNat) :
    sqliteLimitOffset l 0 xs = xs := by
  simp only [sqliteLimitOffset, Int.toNat_zero, List.drop_zero]
  by_cases hneg : l < 0
  · rw [if_pos hneg]
  · rw [if_neg hneg]
    exact List.take_of_length_le hl

lemma unparsed_some_eq (db : DB) (l : Int) (hl : db.rows.length ≤ l.toNat) :
    get_unparsed_posts db (some l) 0 =
      ((db.rows.insertionSort byDateDesc).filter
        (fun r => decide (unparsedPred r))).map (fun r => (r.post_id, r.content)) := by
  simp only [get_unparsed_posts]
  rw [limit_big_take]
  exact le_trans (List.length_filter_le _ _)
    (by rw [List.length_insertionSort]; exact hl)

lemma parsed_some_eq (db : DB) (l : Int) (hl : db.rows.length ≤ l.toNat) :
    get_parsed_posts db (some l) 0 =
      ((db.rows.insertionSort byUpdatedDesc).filter
        (fun r => decide (parsedPred r))).map
        (fun r => (r.post_id, r.parsed_store, r.parsed_address)) := by
  simp only [get_parsed_posts]
  rw [limit_big_take]
  exact le_trans (List.length_filter_le _ _)
    (by rw [List.length_insertionSort]; exact hl)

lemma mem_unparsed_iff (db : DB) (l : Int) (hl : db.rows.length ≤ l.toNat)
    (x : String × String) :
    x ∈ get_unparsed_posts db (some l) 0 ↔
      ∃ r, r ∈ db.rows ∧ unparsedPred r ∧ (r.post_id, r.content) = x := by
  rw [unparsed_some_eq db l hl]
  simp only [List.mem_map, List.mem_filter, decide_eq_true_eq,
    (List.perm_insertionSort byDateDesc db.rows).mem_iff]
  constructor
  · rintro ⟨r, ⟨h1, h2⟩, h3⟩
    exact ⟨r, h1, h2, h3⟩
  · rintro ⟨r, h1, h2, h3⟩
    exact ⟨r, ⟨h1, h2⟩, h3⟩

lemma mem_parsed_iff (db : DB) (l : Int) (hl : db.rows.length ≤ l.toNat)
    (x : String × Option String × Option String) :
    x ∈ get_parsed_posts db (some l) 0 ↔
      ∃ r, r ∈ db.rows ∧ parsedPred r ∧
        (r.post_id, r.parsed_store, r.parsed_address) = x := by
  rw [parsed_some_eq db l hl]
  simp only [List.mem_map, List.mem_filter, decide_eq_true_eq,
    (List.perm_insertionSort byUpdatedDesc db.rows).mem_iff]
  constructor
  · rintro ⟨r, ⟨h1, h2⟩, h3⟩
    exact ⟨r, h1, h2, h3⟩
  · rintro ⟨r, h1, h2, h3⟩
    exact ⟨r, ⟨h1, h2⟩, h3⟩

lemma update_addr_rows (db : DB) (pid x : String) :
    (update_post_metadata db pid none (some x)).2.rows =
      db.rows.map (fun r =>
        if r.post_id = pid then
          { r with parsed_address := some x, updated_at := db.clock }
        else r) := by
  simp only [update_post_metadata]
  rw [if_neg (by simp)]

lemma batch_update_go_counts (us : List UpdateRequest) :
    ∀ (db : DB) (acc : BatchUpdateResult),
      (batch_update_go db acc us).1.success_count +
          (batch_update_go db acc us).1.failed_count =
        acc.success_count + acc.failed_count + us.length ∧
      (batch_update_go db acc us).1.success_posts.length + acc.success_count =
        (batch_update_go db acc us).1.success_count + acc.success_posts.length ∧
      (batch_update_go db acc us).1.failed_posts.length + acc.failed_count =
        (batch_update_go db acc us).1.failed_count + acc.failed_posts.length := by
  induction us with
  | nil =>
    intro db acc
    refine ⟨?_, ?_, ?_⟩ <;> simp [batch_update_go] <;> omega
  | cons u rest ih =>
    intro db acc
    by_cases h1 : u.post_id = ""
    · rw [batch_update_go, if_pos h1]
      have h' := ih db
        { acc with failed_count := acc.failed_count + 1
                   failed_posts := acc.failed_posts ++ [(u.post_id, "缺少 post_id")] }
      dsimp only at h'
      simp only [List.length_append, List.length_cons, List.length_nil] at h' ⊢
      omega
    · rw [batch_update_go, if_neg h1]
      by_cases h2 : u.parsed_store = none ∧ u.parsed_address = none
      · rw [if_pos h2]
        have h' := ih db
          { acc with failed_count := acc.failed_count + 1
                     failed_posts := acc.failed_posts ++ [(u.post_id, "沒有提供要更新的欄位")] }
        dsimp only at h'
        simp only [List.length_append, List.length_cons, List.length_nil] at h' ⊢
        omega
      · rw [if_neg h2]
        by_cases h3 : db.rows.any (fun r => r.post_id = u.post_id)
        · rw [if_pos h3]
          have h' := ih
            { db with
              rows := db.rows.map (fun r =>
                if r.post_id = u.post_id then
                  { r with
                    parsed_store :=
                      match u.parsed_store with | some s => some s | none => r.parsed_store
                    parsed_address :=
                      match u.parsed_address with | some a => some a | none => r.parsed_address
                    updated_at := db.clock }
                else r)
              clock := db.clock + 1 }
            { acc with success_count := acc.success_count + 1
                       success_posts := acc.success_posts ++
                         [(u.post_id, u.parsed_store, u.parsed_address)] }
          dsimp only at h'
          simp only [List.length_append, List.length_cons, List.length_nil] at h' ⊢
          omega
        · rw [if_neg h3]
          have h' := ih db
            { acc with failed_count := acc.failed_count + 1
                       failed_posts := acc.failed_posts ++ [(u.post_id, "找不到該貼文 ID")] }
          dsimp only at h'
          simp only [List.length_append, List.length_cons, List.length_nil] at h' ⊢
          omega

lemma extract_ok_eq (u : String) (db : DB) (sl : List SavedItem) :
    extract_saved_posts u true (some sl) false db =
      ({ success := true, username := some u
         total_found := (sl.map (fun pb => pb.1.shortcode)).toFinset.card
         new_posts :=
           (((extractLoop ((sl.map (fun pb => pb.1.shortcode)).toFinset \
               (get_all_processed_ids db).1) sl
               (get_all_processed_ids db).2 0).1.rows.length : Int)) -
             (db.rows.length : Int)
         skipped_posts :=
           (sl.map (fun pb => pb.1.shortcode)).toFinset.card -
             ((sl.map (fun pb => pb.1.shortcode)).toFinset \
               (get_all_processed_ids db).1).card
         total_in_db :=
           (extractLoop ((sl.map (fun pb => pb.1.shortcode)).toFinset \
             (get_all_processed_ids db).1) sl
             (get_all_processed_ids db).2 0).1.rows.length
         error := none },
       (extractLoop ((sl.map (fun pb => pb.1.shortcode)).toFinset \
         (get_all_processed_ids db).1) sl (get_all_processed_ids db).2 0).1) := by
  simp [extract_saved_posts, get_posts_count]

end Lemmas

section Claims

open DatabaseManager InstagramExtractor

/-- C5: if the caller is not authenticated, reconciliation fails
immediately with an unauthorized report (`ok = false`) and the store —
rows, cache and clock alike — is returned unchanged: no known-id load,
no insert and no count happen. -/
theorem unauthorized_no_store_access (u : String)
    (profile : Option (List SavedItem)) (fetchFails : Bool) (db : DB) :
    extract_saved_posts u false profile fetchFails db =
      ({ success := false, username := some u, error := some "未登入" }, db) := by
  simp [extract_saved_posts]

/-- C8: for `deleteItem(item_id, alsoUnsaveRemote=true)`, the remote
unsave is attempted first and the local delete is attempted regardless
(the event trace is always `[remoteUnsave, localDelete]`); the returned
boolean and store state are exactly those of the local delete, entirely
independent of the remote unsave's outcome. -/
theorem delete_unsave_best_effort (unsaveOk unsaveOk' : Bool) (db : DB)
    (pid : String) :
    (InstagramExtractor.delete_post_by_id unsaveOk db pid true).2.2 =
        [Event.remoteUnsave pid, Event.localDelete pid] ∧
    (InstagramExtractor.delete_post_by_id unsaveOk db pid true).1 =
        (DatabaseManager.delete_post_by_id db pid).1 ∧
    (InstagramExtractor.delete_post_by_id unsaveOk db pid true).2.1 =
        (DatabaseManager.delete_post_by_id db pid).2 ∧
    InstagramExtractor.delete_post_by_id unsaveOk db pid true =
        InstagramExtractor.delete_post_by_id unsaveOk' db pid true := by
  refine ⟨rfl, rfl, rfl, rfl⟩

/-- C3: a non-fatal storage error while persisting one item neither
aborts the loop nor changes its effect on the remaining items — the loop
on `pre ++ [failing item] ++ post` equals the loop on `pre ++ post` from
any state — and the run on such a list still reports `ok = true`. -/
theorem item_failure_isolation (u : String) (db : DB) (p : RemotePost)
    (pre post : List SavedItem) :
    (extract_saved_posts u true
        (some (pre ++ (p, ItemBehavior.normal true) :: post)) false db).1.success
      = true ∧
    (∀ (n : Finset String) (db' : DB) (c : Nat),
      extractLoop n (pre ++ (p, ItemBehavior.normal true) :: post) db' c =
        extractLoop n (pre ++ post) db' c) := by
  constructor
  · simp [extract_saved_posts]
  · exact fun n db' c => extractLoop_drop_failed n p pre post db' c

/-- C1: for a run with no terminal fetch failure, with `R` the distinct
remote shortcodes and `K` the pre-run known-id snapshot returned by
`get_all_processed_ids`, the report has `remote_total = |R|`
(`total_found`), `already_known = |R ∩ K|` (`skipped_posts`), and
`persisted_new` (`new_posts`) equals the store row count after the run
minus the count before it, which in turn equals the number of items whose
insert succeeded; every row added by the run has its id in `R − K`. -/
theorem reconciliation_report_counts (u : String) (db : DB)
    (sl : List SavedItem) :
    (extract_saved_posts u true (some sl) false db).1.success = true ∧
    (extract_saved_posts u true (some sl) false db).1.total_found =
      (sl.map (fun pb => pb.1.shortcode)).toFinset.card ∧
    (extract_saved_posts u true (some sl) false db).1.skipped_posts =
      ((sl.map (fun pb => pb.1.shortcode)).toFinset ∩
        (get_all_processed_ids db).1).card ∧
    (extract_saved_posts u true (some sl) false db).1.new_posts =
      ((extract_saved_posts u true (some sl) false db).2.rows.length : Int) -
        (db.rows.length : Int) ∧
    (extract_saved_posts u true (some sl) false db).1.new_posts =
      ((extractLoop ((sl.map (fun pb => pb.1.shortcode)).toFinset \
          (get_all_processed_ids db).1) sl (get_all_processed_ids db).2 0).2 : Int) ∧
    (∀ r ∈ (extract_saved_posts u true (some sl) false db).2.rows,
      r ∈ db.rows ∨ r.post_id ∈ (sl.map (fun pb => pb.1.shortcode)).toFinset \
        (get_all_processed_ids db).1) := by
  have hrows := get_all_processed_ids_rows db
  have hcount := extractLoop_count
    ((sl.map (fun pb => pb.1.shortcode)).toFinset \ (get_all_processed_ids db).1)
    sl (get_all_processed_ids db).2 0
  have hcard := Finset.card_sdiff_add_card_inter
    (sl.map (fun pb => pb.1.shortcode)).toFinset (get_all_processed_ids db).1
  rw [extract_ok_eq]
  refine ⟨rfl, rfl, ?_, rfl, ?_, ?_⟩
  · simp only
    omega
  · simp only
    rw [hrows] at hcount
    omega
  · intro r hr
    simp only at hr
    have := extractLoop_row_origin
      ((sl.map (fun pb => pb.1.shortcode)).toFinset \ (get_all_processed_ids db).1)
      sl (get_all_processed_ids db).2 0 r hr
    rw [hrows] at this
    exact this

/-- C2: running reconciliation twice in succession against the same
store (fresh cache) with an unchanged remote collection, where the first
run completes cleanly, yields on the second run `persisted_new = 0` and
`already_known = remote_total` (and the second run succeeds). -/
theorem reconciliation_idempotent (u : String) (db : DB) (sl : List SavedItem)
    (hcache : db.cache = none)
    (hbeh : ∀ pb ∈ sl, pb.2 = ItemBehavior.normal false) :
    (extract_saved_posts u true (some sl) false
        (extract_saved_posts u true (some sl) false db).2).1.new_posts = 0 ∧
    (extract_saved_posts u true (some sl) false
        (extract_saved_posts u true (some sl) false db).2).1.skipped_posts =
      (extract_saved_posts u true (some sl) false
        (extract_saved_posts u true (some sl) false db).2).1.total_found ∧
    (extract_saved_posts u true (some sl) false
        (extract_saved_posts u true (some sl) false db).2).1.success = true := by
  have h1 : get_all_processed_ids db =
      (db.ids.toFinset, { db with cache := some db.ids.toFinset }) := by
    simp [get_all_processed_ids, hcache]
  obtain ⟨cs', hcs', hsub', hmem⟩ := extractLoop_cache
    ((sl.map (fun pb => pb.1.shortcode)).toFinset \ db.ids.toFinset) sl
    { db with cache := some db.ids.toFinset } 0 db.ids.toFinset rfl
    (fun x hx => List.mem_toFinset.mpr hx) hbeh
  have hRsub : (sl.map (fun pb => pb.1.shortcode)).toFinset ⊆ cs' := by
    intro x hx
    have hx' := List.mem_toFinset.mp hx
    obtain ⟨pb, hpb, hpx⟩ := List.mem_map.mp hx'
    by_cases hn : pb.1.shortcode ∈
        (sl.map (fun pb => pb.1.shortcode)).toFinset \ db.ids.toFinset
    · rw [← hpx]; exact hmem pb hpb hn
    · have hK : pb.1.shortcode ∈ db.ids.toFinset := by
        rw [Finset.mem_sdiff] at hn
        push_neg at hn
        exact hn (by rw [hpx]; exact hx)
      rw [← hpx]; exact hsub' hK
  have hrun1 : (extract_saved_posts u true (some sl) false db).2 =
      (extractLoop ((sl.map (fun pb => pb.1.shortcode)).toFinset \ db.ids.toFinset)
        sl { db with cache := some db.ids.toFinset } 0).1 := by
    rw [extract_ok_eq, h1]
  have hgall2 : get_all_processed_ids
      (extractLoop ((sl.map (fun pb => pb.1.shortcode)).toFinset \ db.ids.toFinset)
        sl { db with cache := some db.ids.toFinset } 0).1 =
      (cs',
       (extractLoop ((sl.map (fun pb => pb.1.shortcode)).toFinset \ db.ids.toFinset)
        sl { db with cache := some db.ids.toFinset } 0).1) := by
    simp [get_all_processed_ids, hcs']
  have hempty : (sl.map (fun pb => pb.1.shortcode)).toFinset \ cs' = ∅ :=
    Finset.sdiff_eq_empty_iff_subset.mpr hRsub
  rw [hrun1, extract_ok_eq, hgall2, hempty, extractLoop_empty]
  refine ⟨by simp, by simp, rfl⟩

/-- C6: inserting two items with the same `item_id` leaves exactly one
row for that id — the second insert reports failure (`IntegrityError`,
i.e. `AlreadyExists`) without raising and without overwriting the
existing row — and `item_id` uniqueness is preserved by every store
operation (insert, annotation update, single and batch delete, batch
update; reads do not change the rows). -/
theorem item_id_uniqueness :
    (∀ (db : DB) (p q : RemotePost), q.shortcode = p.shortcode →
      (save_post false p db).1 = true →
      (save_post false q (save_post false p db).2).1 = false ∧
      (save_post false q (save_post false p db).2).2 = (save_post false p db).2 ∧
      ((save_post false p db).2.rows.filter
        (fun r => decide (r.post_id = p.shortcode))).length = 1) ∧
    (∀ (e : Bool) (p : RemotePost) (db : DB), UniqueIds db →
      UniqueIds (save_post e p db).2) ∧
    (∀ (db : DB) (pid : String) (s a : Option String), UniqueIds db →
      UniqueIds (update_post_metadata db pid s a).2) ∧
    (∀ (db : DB) (pid : String), UniqueIds db →
      UniqueIds (DatabaseManager.delete_post_by_id db pid).2) ∧
    (∀ (db : DB) (us : List UpdateRequest), UniqueIds db →
      UniqueIds (batch_update_post_metadata db us).2) ∧
    (∀ (db : DB) (pids : List String), UniqueIds db →
      UniqueIds (batch_delete_posts db pids).2) ∧
    (∀ db : DB, (get_all_processed_ids db).2.rows = db.rows) := by
  refine ⟨?_, ?_, ?_, ?_, ?_, ?_, get_all_processed_ids_rows⟩
  · intro db p q hq hsucc
    have hnotin : p.shortcode ∉ db.ids := by
      intro h
      rw [save_post_dup p db h] at hsucc
      simp at hsucc
    have hfil : db.rows.filter (fun r => decide (r.post_id = p.shortcode)) = [] := by
      rw [List.filter_eq_nil_iff]
      intro r hr
      simp only [decide_eq_true_eq]
      intro hrp
      exact hnotin (by rw [← hrp]; exact List.mem_map_of_mem _ hr)
    rw [save_post_new p db hnotin]
    have hmem2 : q.shortcode ∈
        (({ rows := db.rows ++ [p.toRow db.clock]
            cache := db.cache.map (fun c => insert p.shortcode c)
            clock := db.clock + 1 } : DB)).ids := by
      simp [DB.ids, RemotePost.toRow, hq]
    refine ⟨?_, ?_, ?_⟩
    · rw [save_post_dup _ _ hmem2]
    · rw [save_post_dup _ _ hmem2]
    · simp [List.filter_append, hfil, RemotePost.toRow]
  · intro e p db h
    cases e
    · by_cases hm : p.shortcode ∈ db.ids
      · rw [save_post_dup p db hm]; exact h
      · rw [save_post_new p db hm]
        unfold UniqueIds DB.ids at h ⊢
        rw [List.map_append]
        refine h.append ?_ ?_
        · simp [RemotePost.toRow]
        · intro x hx hx'
          simp [RemotePost.toRow] at hx'
          rw [hx'] at hx
          exact hm hx
    · rw [save_post_err_eq]; exact h
  · intro db pid s a h
    by_cases hna : s = none ∧ a = none
    · simp only [update_post_metadata, if_pos hna]
      exact h
    · simp only [update_post_metadata, if_neg hna]
      unfold UniqueIds DB.ids at h ⊢
      rw [ids_map_of_preserved _ (update_row_post_id pid s a db.clock) db.rows]
      exact h
  · intro db pid h
    by_cases hm : db.rows.any (fun r => r.post_id = pid)
    · simp only [DatabaseManager.delete_post_by_id, if_pos hm]
      exact (filtered_ids_sublist db pid).nodup h
    · simp only [DatabaseManager.delete_post_by_id, if_neg hm]
      exact h
  · intro db us h
    unfold UniqueIds
    show (batch_update_go db {} us).2.ids.Nodup
    rw [(batch_update_go_ids_cache us db {}).1]
    exact h
  · intro db pids h
    exact batch_delete_go_unique pids db {} h

/-- C9: whenever the processed-ids cache is populated, every store
operation keeps it equal (as a set) to the persisted `item_id`s — a
successful insert adds the id, a successful single or batch delete
removes it, annotation updates leave ids untouched — so a subsequent
`get_all_processed_ids` call returns exactly the persisted id set. -/
theorem cache_consistency :
    (∀ (e : Bool) (p : RemotePost) (db : DB), CacheConsistent db →
      CacheConsistent (save_post e p db).2) ∧
    (∀ (db : DB) (pid : String), CacheConsistent db →
      CacheConsistent (DatabaseManager.delete_post_by_id db pid).2) ∧
    (∀ (db : DB) (pids : List String), CacheConsistent db →
      CacheConsistent (batch_delete_posts db pids).2) ∧
    (∀ (db : DB) (pid : String) (s a : Option String), CacheConsistent db →
      CacheConsistent (update_post_metadata db pid s a).2) ∧
    (∀ (db : DB) (us : List UpdateRequest), CacheConsistent db →
      CacheConsistent (batch_update_post_metadata db us).2) ∧
    (∀ db : DB, CacheConsistent db →
      (∀ x, x ∈ (get_all_processed_ids db).1 ↔ x ∈ db.ids) ∧
      CacheConsistent (get_all_processed_ids db).2) := by
  refine ⟨cacheConsistent_save, ?_, ?_, ?_, ?_, ?_⟩
  · intro db pid h
    by_cases hm : db.rows.any (fun r => r.post_id = pid)
    · simp only [DatabaseManager.delete_post_by_id, if_pos hm]
      exact cacheConsistent_filter_erase db pid (db.clock + 1) h
    · simp only [DatabaseManager.delete_post_by_id, if_neg hm]
      exact h
  · intro db pids h
    exact batch_delete_go_cache pids db {} h
  · intro db pid s a h
    by_cases hna : s = none ∧ a = none
    · simp only [update_post_metadata, if_pos hna]
      exact h
    · simp only [update_post_metadata, if_neg hna]
      refine cacheConsistent_of_ids_cache_eq db _ ?_ rfl h
      exact ids_map_of_preserved _ (update_row_post_id pid s a db.clock) db.rows
  · intro db us h
    have hic := batch_update_go_ids_cache us db {}
    exact cacheConsistent_of_ids_cache_eq db _ hic.1 hic.2 h
  · intro db h
    rcases hdb : db.cache with _ | c₀
    · constructor
      · intro x
        simp [get_all_processed_ids, hdb]
      · intro c hc x
        simp only [get_all_processed_ids, hdb] at hc
        have hce : c = db.ids.toFinset := by
          simpa using hc.symm
        subst hce
        simp only [get_all_processed_ids, hdb]
        exact List.mem_toFinset
    · constructor
      · intro x
        simp only [get_all_processed_ids, hdb]
        exact h c₀ hdb x
      · simp only [get_all_processed_ids, hdb]
        exact h

/-- C7: `batch_update_post_metadata` treats entries independently —
every entry of any batch is reported exactly once (the success and
failure lists together have one entry per request, matching the
counters) — and for a batch `[existing, missing]` it reports exactly one
success and one not-found failure while the existing item's provided
annotation fields really are updated. -/
theorem batch_update_independence :
    (∀ (db : DB) (us : List UpdateRequest),
      (batch_update_post_metadata db us).1.success_count +
        (batch_update_post_metadata db us).1.failed_count = us.length ∧
      (batch_update_post_metadata db us).1.success_posts.length =
        (batch_update_post_metadata db us).1.success_count ∧
      (batch_update_post_metadata db us).1.failed_posts.length =
        (batch_update_post_metadata db us).1.failed_count) ∧
    (∀ (db : DB) (u₁ u₂ : UpdateRequest),
      u₁.post_id ≠ "" → u₁.post_id ∈ db.ids →
      ¬(u₁.parsed_store = none ∧ u₁.parsed_address = none) →
      u₂.post_id ≠ "" → u₂.post_id ∉ db.ids →
      ¬(u₂.parsed_store = none ∧ u₂.parsed_address = none) →
      (batch_update_post_metadata db [u₁, u₂]).1.success_count = 1 ∧
      (batch_update_post_metadata db [u₁, u₂]).1.failed_count = 1 ∧
      (batch_update_post_metadata db [u₁, u₂]).1.success_posts =
        [(u₁.post_id, u₁.parsed_store, u₁.parsed_address)] ∧
      (batch_update_post_metadata db [u₁, u₂]).1.failed_posts =
        [(u₂.post_id, "找不到該貼文 ID")] ∧
      (∀ r ∈ (batch_update_post_metadata db [u₁, u₂]).2.rows,
        r.post_id = u₁.post_id →
          (u₁.parsed_store ≠ none → r.parsed_store = u₁.parsed_store) ∧
          (u₁.parsed_address ≠ none → r.parsed_address = u₁.parsed_address))) := by
  constructor
  · intro db us
    have h' := batch_update_go_counts us db {}
    dsimp only at h'
    simp only [List.length_nil] at h'
    refine ⟨?_, ?_, ?_⟩ <;> [skip; skip; skip] <;>
      simp only [batch_update_post_metadata] <;> omega
  · intro db u₁ u₂ h1 h2 h3 h4 h5 h6
    have ha1 : db.rows.any (fun r => r.post_id = u₁.post_id) = true := by
      rw [List.any_eq_true]
      obtain ⟨r, hr, hrx⟩ := List.mem_map.mp h2
      exact ⟨r, hr, by simp [hrx]⟩
    have ha2 :
        (db.rows.map (fun r =>
          if r.post_id = u₁.post_id then
            { r with
              parsed_store :=
                match u₁.parsed_store with | some s => some s | none => r.parsed_store
              parsed_address :=
                match u₁.parsed_address with | some a => some a | none => r.parsed_address
              updated_at := db.clock }
          else r)).any (fun r => r.post_id = u₂.post_id) = false := by
      rw [List.any_eq_false]
      intro r' hr'
      obtain ⟨r₀, hr₀, hr₀'⟩ := List.mem_map.mp hr'
      simp only [decide_eq_true_eq]
      intro hcontra
      apply h5
      rw [← hr₀'] at hcontra
      rw [update_row_post_id u₁.post_id u₁.parsed_store u₁.parsed_address db.clock r₀]
        at hcontra
      rw [← hcontra]
      exact List.mem_map_of_mem _ hr₀
    simp only [batch_update_post_metadata]
    rw [batch_update_go, if_neg h1, if_neg h3, if_pos ha1,
        batch_update_go, if_neg h4, if_neg h6,
        if_neg (by rw [ha2]; exact Bool.false_ne_true), batch_update_go]
    refine ⟨rfl, rfl, by simp, by simp, ?_⟩
    intro r hr hrp
    obtain ⟨r₀, hr₀, hr₀'⟩ := List.mem_map.mp hr
    have hpid : r₀.post_id = u₁.post_id := by
      rw [← hrp, ← hr₀']
      exact (update_row_post_id u₁.post_id u₁.parsed_store u₁.parsed_address
        db.clock r₀).symm
    rw [← hr₀']
    constructor
    · intro hs
      rcases hst : u₁.parsed_store with _ | s
      · exact absurd hst hs
      · simp [hpid, hst]
    · intro hs
      rcases hst : u₁.parsed_address with _ | a
      · exact absurd hst hs
      · simp [hpid, hst]

/-- C4 counterexample: two persisted items whose annotation fields are
both null or empty yet absent from `unparsed()` — one because the
default `limit=None` call builds `OFFSET` without `LIMIT` and returns
`[]`, one because an empty-string `parsed_address` fails the strict
`parsed_address IS NULL` filter even with a limit supplied. -/
theorem unparsed_claim_counterexample :
    (exUnparsedRow ∈ exUnparsedDb.rows ∧
     exUnparsedRow.parsed_store = none ∧ exUnparsedRow.parsed_address = none ∧
     get_unparsed_posts exUnparsedDb none 0 = []) ∧
    (exEmptyAddrRow ∈ exEmptyAddrDb.rows ∧
     exEmptyAddrRow.parsed_store = none ∧
     exEmptyAddrRow.parsed_address = some "" ∧
     get_unparsed_posts exEmptyAddrDb (some 10) 0 = []) := by
  exact ⟨⟨by decide, rfl, rfl, rfl⟩, ⟨by decide, rfl, rfl, by decide⟩⟩

/-- C4 amended: with a limit covering the whole table, an item appears
in `unparsed()` iff its `annotation_store` is null or empty AND its
`annotation_address` is strictly null (an empty-string address excludes
it; a `limit`-less call returns nothing because its SQL is invalid); and
after `updateAnnotation(id, address=x)` with non-empty `x`, that id no
longer appears in `unparsed()` and does appear in `parsed()`. -/
theorem unparsed_parsed_amended (db : DB) (l : Int) (r : Row) (x : String)
    (hu : UniqueIds db) (hr : r ∈ db.rows) (hl : db.rows.length ≤ l.toNat)
    (hx : x ≠ "") :
    ((r.post_id, r.content) ∈ get_unparsed_posts db (some l) 0 ↔
      ((r.parsed_store = none ∨ r.parsed_store = some "") ∧
        r.parsed_address = none)) ∧
    (∀ pr ∈ get_unparsed_posts
        (update_post_metadata db r.post_id none (some x)).2 (some l) 0,
      pr.1 ≠ r.post_id) ∧
    (r.post_id, r.parsed_store, some x) ∈ get_parsed_posts
        (update_post_metadata db r.post_id none (some x)).2 (some l) 0 := by
  have hl' : (update_post_metadata db r.post_id none (some x)).2.rows.length ≤
      l.toNat := by
    rw [update_addr_rows, List.length_map]
    exact hl
  refine ⟨?_, ?_, ?_⟩
  · rw [mem_unparsed_iff db l hl]
    constructor
    · rintro ⟨r', h1, h2, h3⟩
      have hpid : r'.post_id = r.post_id := congrArg Prod.fst h3
      have : r' = r := List.inj_on_of_nodup_map hu h1 hr hpid
      rw [← this]
      exact h2
    · intro hpred
      exact ⟨r, hr, hpred, rfl⟩
  · intro pr hpr heq
    rw [mem_unparsed_iff _ l hl'] at hpr
    obtain ⟨r', h1, h2, h3⟩ := hpr
    rw [update_addr_rows] at h1
    obtain ⟨r₀, hr₀, hr₀'⟩ := List.mem_map.mp h1
    have hpid : r'.post_id = pr.1 := congrArg Prod.fst h3
    by_cases hc : r₀.post_id = r.post_id
    · rw [if_pos hc] at hr₀'
      have : r'.parsed_address = some x := by rw [← hr₀']
      rw [h2.2] at this
      exact Option.noConfusion this
    · rw [if_neg hc] at hr₀'
      apply hc
      rw [hr₀', hpid, heq]
  · rw [mem_parsed_iff _ l hl']
    refine ⟨{ r with parsed_address := some x, updated_at := db.clock }, ?_, ?_, rfl⟩
    · rw [update_addr_rows]
      have := List.mem_map_of_mem (fun r' =>
        if r'.post_id = r.post_id then
          { r' with parsed_address := some x, updated_at := db.clock }
        else r') hr
      simpa using this
    · constructor
      · exact Option.noConfusion
      · intro hcontra
        exact hx (Option.some.inj hcontra)

/-- C10 counterexample: with `limit = -1` — not a positive limit —
the offset is not ignored: offsets 0 and 1 give different results
(SQLite treats a negative `LIMIT` as unbounded but still applies
`OFFSET`). -/
theorem list_offset_counterexample :
    ¬ ((0 : Int) < -1) ∧
    get_posts exListDb (some (-1)) 1 ≠ get_posts exListDb (some (-1)) 0 := by
  exact ⟨by decide, by decide⟩

/-- C10 amended: when `limit` is `None` or `0` (Python-falsy), the
offset is ignored and the full `posted_at`-descending sequence is
returned; the offset takes effect for every nonzero limit — a positive
limit returns at most that many items after skipping `offset`, and a
negative limit returns all remaining items after skipping `offset`. -/
theorem list_offset_amended (db : DB) (off : Int) :
    (∀ off' : Int, get_posts db none off = get_posts db none off') ∧
    get_posts db (some 0) off = get_posts db none 0 ∧
    (get_posts db none off).length = db.rows.length ∧
    (∀ l : Int, l < 0 →
      (get_posts db (some l) off).length = db.rows.length - off.toNat) ∧
    (∀ l : Int, 0 < l →
      (get_posts db (some l) off).length =
        min l.toNat (db.rows.length - off.toNat)) := by
  refine ⟨fun off' => rfl, by simp [get_posts], ?_, ?_, ?_⟩
  · simp [get_posts, List.length_insertionSort]
  · intro l hneg
    have hne : ¬ l = 0 := by omega
    simp [get_posts, hne, sqliteLimitOffset, if_pos hneg,
      List.length_insertionSort]
  · intro l hpos
    have hne : ¬ l = 0 := by omega
    have hnneg : ¬ l < 0 := by omega
    simp [get_posts, hne, sqliteLimitOffset, hnneg, List.length_insertionSort]

/-- Witness for C1 at a concrete store and remote collection. -/
theorem reconciliation_report_counts_witness :
    (extract_saved_posts "me" true
        (some [(exRemote, ItemBehavior.normal false)]) false exDb0).1.success
      = true ∧
    (extract_saved_posts "me" true
        (some [(exRemote, ItemBehavior.normal false)]) false exDb0).1.total_found
      = ([(exRemote, ItemBehavior.normal false)].map
          (fun pb => pb.1.shortcode)).toFinset.card :=
  ⟨(reconciliation_report_counts "me" exDb0
      [(exRemote, ItemBehavior.normal false)]).1,
   (reconciliation_report_counts "me" exDb0
      [(exRemote, ItemBehavior.normal false)]).2.1⟩

/-- Witness for C2 at a concrete store and remote collection. -/
theorem reconciliation_idempotent_witness :
    (extract_saved_posts "me" true
        (some [(exRemote, ItemBehavior.normal false)]) false
        (extract_saved_posts "me" true
          (some [(exRemote, ItemBehavior.normal false)]) false exDb0).2).1.new_posts
      = 0 ∧
    (extract_saved_posts "me" true
        (some [(exRemote, ItemBehavior.normal false)]) false
        (extract_saved_posts "me" true
          (some [(exRemote, ItemBehavior.normal false)]) false exDb0).2).1.skipped_posts
      = (extract_saved_posts "me" true
          (some [(exRemote, ItemBehavior.normal false)]) false
          (extract_saved_posts "me" true
            (some [(exRemote, ItemBehavior.normal false)]) false exDb0).2).1.total_found ∧
    (extract_saved_posts "me" true
        (some [(exRemote, ItemBehavior.normal false)]) false
        (extract_saved_posts "me" true
          (some [(exRemote, ItemBehavior.normal false)]) false exDb0).2).1.success
      = true :=
  reconciliation_idempotent "me" exDb0 [(exRemote, ItemBehavior.normal false)]
    rfl (by decide)

/-- Witness for C6: two inserts of the same shortcode on the empty
store — the second fails benignly and exactly one row remains. -/
theorem item_id_uniqueness_witness :
    (save_post false exRemote (save_post false exRemote exDb0).2).1 = false ∧
    (save_post false exRemote (save_post false exRemote exDb0).2).2 =
      (save_post false exRemote exDb0).2 ∧
    ((save_post false exRemote exDb0).2.rows.filter
      (fun r => decide (r.post_id = exRemote.shortcode))).length = 1 :=
  item_id_uniqueness.1 exDb0 exRemote exRemote rfl (by decide)

/-- Witness for C7 at a concrete store and batch. -/
theorem batch_update_independence_witness :
    (batch_update_post_metadata exListDb
        [⟨"p1", some "store", some "addr"⟩, ⟨"zz", some "s", none⟩]).1.success_count
      = 1 ∧
    (batch_update_post_metadata exListDb
        [⟨"p1", some "store", some "addr"⟩, ⟨"zz", some "s", none⟩]).1.failed_count
      = 1 :=
  ⟨(batch_update_independence.2 exListDb ⟨"p1", some "store", some "addr"⟩
      ⟨"zz", some "s", none⟩ (by decide) (by decide) (by decide) (by decide)
      (by decide) (by decide)).1,
   (batch_update_independence.2 exListDb ⟨"p1", some "store", some "addr"⟩
      ⟨"zz", some "s", none⟩ (by decide) (by decide) (by decide) (by decide)
      (by decide) (by decide)).2.1⟩

/-- Witness for C9: on a store whose cache is populated (`some` with the
two persisted ids), a successful insert keeps the cache populated —
afterwards it is `some` of the old set plus the inserted id — the
consistency invariant still holds, and `get_all_processed_ids` then
agrees with the persisted ids on the freshly inserted id. -/
theorem cache_consistency_witness :
    (save_post false exRemote exCachedDb).2.cache =
      some (insert "a" {"p1", "p2"}) ∧
    "a" ∈ (save_post false exRemote exCachedDb).2.ids ∧
    CacheConsistent (save_post false exRemote exCachedDb).2 ∧
    ("a" ∈ (get_all_processed_ids (save_post false exRemote exCachedDb).2).1 ↔
      "a" ∈ (save_post false exRemote exCachedDb).2.ids) := by
  have hcc : CacheConsistent exCachedDb := by
    intro c hc x
    rw [show exCachedDb.cache = some {"p1", "p2"} from rfl] at hc
    obtain rfl : ({"p1", "p2"} : Finset String) = c := Option.some.inj hc
    simp [exCachedDb, DB.ids, exRow1, exRow2]
  have h1 := cache_consistency.1 false exRemote exCachedDb hcc
  exact ⟨by decide, by decide, h1,
    (cache_consistency.2.2.2.2.2 (save_post false exRemote exCachedDb).2 h1).1 "a"⟩

/-- Witness for C4 (amended) at a concrete store. -/
theorem unparsed_parsed_amended_witness :
    ((exUnparsedRow.post_id, exUnparsedRow.content) ∈
        get_unparsed_posts exUnparsedDb (some 5) 0 ↔
      ((exUnparsedRow.parsed_store = none ∨
          exUnparsedRow.parsed_store = some "") ∧
        exUnparsedRow.parsed_address = none)) ∧
    (exUnparsedRow.post_id, exUnparsedRow.parsed_store, some "X") ∈
      get_parsed_posts
        (update_post_metadata exUnparsedDb exUnparsedRow.post_id none
          (some "X")).2 (some 5) 0 :=
  ⟨(unparsed_parsed_amended exUnparsedDb 5 exUnparsedRow "X"
      (by unfold UniqueIds; decide)
      (by decide) (by decide) (by decide)).1,
   (unparsed_parsed_amended exUnparsedDb 5 exUnparsedRow "X"
      (by unfold UniqueIds; decide)
      (by decide) (by decide) (by decide)).2.2⟩

/-- Witness for C10 (amended): negative limit, offset applied. -/
theorem list_offset_amended_witness :
    (get_posts exListDb (some (-1)) 1).length =
      exListDb.rows.length - (1 : Int).toNat :=
  (list_offset_amended exListDb 1).2.2.2.1 (-1) (by decide)

end Claims

end FoodMap
